import Mathlib

/-!
Verification of the Interpreter_Simulator repository: a shallow embedding of
the lexer (`Lexer.tokenize`), recursive-descent parser (`Parser.parse` and its
helper productions) and tree-walking evaluator (`Interpreter.interpret`) from
`src/Interpreter_Simulator.py`, together with theorems settling the frozen
claims about the specification.

Modelling conventions:
- The mutable parser/interpreter state of the Python source becomes explicit state passing:
  parser functions take a token list and a position and return the new
  position; the evaluator takes and returns the variable environment.
- Python exceptions become `Except` errors.  The distinct exception messages
  of the source map to distinct error constructors.  `Parser.primary` and
  `Parser.statement` dereference `current_token()` without a `None` guard in
  the source; the `AttributeError` this raises when the tokens are exhausted
  is modelled by the dedicated constructor `attrErrorNoneType`, kept separate
  from the four intended parse-error kinds.
- Unbounded recursion (the mutually recursive parser productions and the
  evaluator while loop) is made total with an explicit fuel parameter;
  `outOfFuel` is an artifact of the embedding and is never produced when the
  fuel exceeds the work actually performed, so theorems either hold for every
  fuel or take the relevant sub-evaluation as a hypothesis.
- Python numbers (int, and float results of `/`) are modelled as `Rat`,
  matching the description in the spec of `/` as true (non-truncating) division.
- Character classification (`isspace`, `isdigit`, `isalpha`, `isalnum`) is
  modelled with the ASCII-compatible `Char` predicates of Lean; all inputs that
  appear in the repository are ASCII.
-/

namespace InterpSim

/-! ## Tokens and the lexer (`Lexer` class, src lines 4-94) -/

/-- The token kinds produced by `Lexer.tokenize`. -/
inductive TokenType
  | NUMBER
  | IDENTIFIER
  | KEYWORD
  | OPERATOR
deriving DecidableEq

/-- The value of a token is an integer (for `NUMBER`) or a string (all others),
mirroring the dynamically typed `value` attribute of the Python `Token`. -/
inductive TokenValue
  | num (n : Int)
  | str (s : String)
deriving DecidableEq

/-- `Token` mirrors the Python `Token` class: a kind and a value. -/
structure Token where
  type : TokenType
  value : TokenValue
deriving DecidableEq

/-- Lexer failure: `Unknown symbol` (src line 64).  `outOfFuel` is an
embedding artifact; fuel `≥` input length `+ 1` never reaches it. -/
inductive LexError
  | unknownSymbol (c : Char)
  | outOfFuel
deriving DecidableEq

/-- The maximal run of digits at the head of the list and the remainder,
as consumed by the loop of `Lexer.get_number` (src lines 74-77). -/
def spanDigits : List Char → List Char × List Char
  | [] => ([], [])
  | c :: cs =>
    if c.isDigit then
      let r := spanDigits cs
      (c :: r.1, r.2)
    else ([], c :: cs)

/-- The maximal run of alphanumeric characters at the head of the list and
the remainder, as consumed by the loop of `Lexer.get_identifier`
(src lines 87-90). -/
def spanAlnum : List Char → List Char × List Char
  | [] => ([], [])
  | c :: cs =>
    if c.isAlphanum then
      let r := spanAlnum cs
      (c :: r.1, r.2)
    else ([], c :: cs)

/-- Decimal value of a digit run, the `int(num)` of `Lexer.get_number`
(src line 78). -/
def digitsVal (ds : List Char) : Nat :=
  ds.foldl (fun a c => a * 10 + (c.toNat - 48)) 0

/-- The reserved words of `Lexer.get_identifier` (src line 91). -/
def keywords : List String := ["if", "else", "while", "def"]

/-- `Lexer.tokenize` (src lines 44-65): skip whitespace, lex maximal digit
runs as `NUMBER`, maximal letter-led alphanumeric runs as `KEYWORD` or
`IDENTIFIER`, the nine listed single characters as `OPERATOR`, and fail on
anything else. -/
def tokenize : Nat → List Char → Except LexError (List Token)
  | 0, _ => .error .outOfFuel
  | _, [] => .ok []
  | fuel+1, c :: cs =>
    if c.isWhitespace then tokenize fuel cs
    else if c.isDigit then
      let r := spanDigits cs
      match tokenize fuel r.2 with
      | .error e => .error e
      | .ok ts => .ok (Token.mk .NUMBER (.num (Int.ofNat (digitsVal (c :: r.1)))) :: ts)
    else if c.isAlpha then
      let r := spanAlnum cs
      let id := String.mk (c :: r.1)
      match tokenize fuel r.2 with
      | .error e => .error e
      | .ok ts =>
        if keywords.contains id then .ok (Token.mk .KEYWORD (.str id) :: ts)
        else .ok (Token.mk .IDENTIFIER (.str id) :: ts)
    else if "+-*/()=<>".toList.contains c then
      match tokenize fuel cs with
      | .error e => .error e
      | .ok ts => .ok (Token.mk .OPERATOR (.str (String.mk [c])) :: ts)
    else .error (.unknownSymbol c)

/-! ## AST node model (src lines 100-228) -/

/-- The closed set of AST node variants.  `If.ifBody`, `If.elseBody` and
`While.body` are optional because `Parser.statement` can return `None` and
`IfNode.else_body` defaults to `None` in the source. -/
inductive ASTNode
  | Number (value : Int)
  | Variable (name : String)
  | BinaryOp (left : ASTNode) (op : String) (right : ASTNode)
  | Assignment (name : String) (value : ASTNode)
  | If (condition : ASTNode) (ifBody : Option ASTNode) (elseBody : Option ASTNode)
  | While (condition : ASTNode) (body : Option ASTNode)

/-! ## Parser (`Parser` class, src lines 231-414) -/

/-- Parser failures.  The first four are the messages raised by
`Parser.consume` (src lines 406-411) and `Parser.primary` (src line 371).
`attrErrorNoneType` models the Python `AttributeError` raised when a method
dereferences `current_token().type` after `current_token()` returned `None`
(reachable in `Parser.primary`, src line 366, on exhausted tokens).
`outOfFuel` is an embedding artifact. -/
inductive PError
  | unexpectedEnd
  | unexpectedKind (expected : TokenType) (received : TokenType)
  | unexpectedValue (expected : String) (received : TokenValue)
  | invalidPrimary
  | attrErrorNoneType
  | outOfFuel
deriving DecidableEq

/-- `Parser.current_token` (src lines 373-382): the token at `pos`, or
`None` past the end. -/
def currentToken (toks : List Token) (pos : Nat) : Option Token :=
  toks.get? pos

/-- `Parser.peek_next_token` (src lines 384-393). -/
def peekNextToken (toks : List Token) (pos : Nat) : Option Token :=
  toks.get? (pos + 1)

/-- `Parser.consume` (src lines 395-414): check bounds, kind, and (when an
expected value is given) the literal value; on success return the token and
advance the position. -/
def consume (toks : List Token) (pos : Nat) (expectedType : TokenType)
    (expectedValue : Option String) : Except PError (Token × Nat) :=
  match currentToken toks pos with
  | none => .error .unexpectedEnd
  | some t =>
    if t.type ≠ expectedType then .error (.unexpectedKind expectedType t.type)
    else
      match expectedValue with
      | some v =>
        if t.value ≠ .str v then .error (.unexpectedValue v t.value)
        else .ok (t, pos + 1)
      | none => .ok (t, pos + 1)

/-- Integer payload of a token value, as read by `Parser.primary` from a
`NUMBER` token.  (Lexer-produced `NUMBER` tokens always carry `num`.) -/
def TokenValue.getInt : TokenValue → Int
  | .num n => n
  | .str _ => 0

/-- String payload of a token value, as read by `Parser.assignment` and
`Parser.primary` from `IDENTIFIER`/`OPERATOR` tokens.  (Lexer-produced
tokens of those kinds always carry `str`.) -/
def TokenValue.getStr : TokenValue → String
  | .str s => s
  | .num n => toString n

/-- The lookahead of `Parser.statement` (src lines 273-274): the next token
exists, is an `OPERATOR`, and its value is `=`. -/
def assignLookahead (toks : List Token) (pos : Nat) : Bool :=
  match peekNextToken toks pos with
  | some nt => nt.type == .OPERATOR && nt.value == .str "="
  | none => false

/-- The guard of the `else` clause in `Parser.if_statement`
(src lines 290-291): a current token exists, is a `KEYWORD`, and its value
is `else`. -/
def elseLookahead (toks : List Token) (pos : Nat) : Bool :=
  match currentToken toks pos with
  | some t => t.type == .KEYWORD && t.value == .str "else"
  | none => false

/-- Loop guard of `Parser.addition` (src lines 337-338): current token is an
`OPERATOR` with value `+` or `-`. -/
def isAddSubOp (toks : List Token) (pos : Nat) : Bool :=
  match currentToken toks pos with
  | some t => t.type == .OPERATOR && (t.value == .str "+" || t.value == .str "-")
  | none => false

/-- Loop guard of `Parser.multiplication` (src lines 352-353): current token
is an `OPERATOR` with value `*` or `/`. -/
def isMulDivOp (toks : List Token) (pos : Nat) : Bool :=
  match currentToken toks pos with
  | some t => t.type == .OPERATOR && (t.value == .str "*" || t.value == .str "/")
  | none => false

mutual

/-- `Parser.statement` (src lines 259-277).  Past the end of the tokens it
returns the no-statement result (`none`).  A `KEYWORD` token other than
`if`/`while` falls through the inner `if`/`elif` of the source with no
`else`, so the method implicitly returns `None` — modelled faithfully by
the `.ok (none, pos)` fall-through branch. -/
def statement : Nat → List Token → Nat → Except PError (Option ASTNode × Nat)
  | 0, _, _ => .error .outOfFuel
  | fuel+1, toks, pos =>
    if toks.length ≤ pos then .ok (none, pos)
    else
      match currentToken toks pos with
      | none => .ok (none, pos)
      | some cur =>
        if cur.type = .KEYWORD then
          if cur.value = .str "if" then
            match ifStatement fuel toks pos with
            | .error e => .error e
            | .ok (n, p) => .ok (some n, p)
          else if cur.value = .str "while" then
            match whileStatement fuel toks pos with
            | .error e => .error e
            | .ok (n, p) => .ok (some n, p)
          else .ok (none, pos)
        else if cur.type == .IDENTIFIER && assignLookahead toks pos then
          match assignment fuel toks pos with
          | .error e => .error e
          | .ok (n, p) => .ok (some n, p)
        else
          match expression fuel toks pos with
          | .error e => .error e
          | .ok (n, p) => .ok (some n, p)

/-- `Parser.if_statement` (src lines 279-294). -/
def ifStatement : Nat → List Token → Nat → Except PError (ASTNode × Nat)
  | 0, _, _ => .error .outOfFuel
  | fuel+1, toks, pos =>
    match consume toks pos .KEYWORD (some "if") with
    | .error e => .error e
    | .ok (_, p1) =>
      match expression fuel toks p1 with
      | .error e => .error e
      | .ok (cond, p2) =>
        match statement fuel toks p2 with
        | .error e => .error e
        | .ok (ifBody, p3) =>
          if elseLookahead toks p3 then
            match consume toks p3 .KEYWORD (some "else") with
            | .error e => .error e
            | .ok (_, p4) =>
              match statement fuel toks p4 with
              | .error e => .error e
              | .ok (elseBody, p5) => .ok (.If cond ifBody elseBody, p5)
          else .ok (.If cond ifBody none, p3)

/-- `Parser.while_statement` (src lines 296-306). -/
def whileStatement : Nat → List Token → Nat → Except PError (ASTNode × Nat)
  | 0, _, _ => .error .outOfFuel
  | fuel+1, toks, pos =>
    match consume toks pos .KEYWORD (some "while") with
    | .error e => .error e
    | .ok (_, p1) =>
      match expression fuel toks p1 with
      | .error e => .error e
      | .ok (cond, p2) =>
        match statement fuel toks p2 with
        | .error e => .error e
        | .ok (body, p3) => .ok (.While cond body, p3)

/-- `Parser.assignment` (src lines 308-318). -/
def assignment : Nat → List Token → Nat → Except PError (ASTNode × Nat)
  | 0, _, _ => .error .outOfFuel
  | fuel+1, toks, pos =>
    match consume toks pos .IDENTIFIER none with
    | .error e => .error e
    | .ok (nameTok, p1) =>
      match consume toks p1 .OPERATOR (some "=") with
      | .error e => .error e
      | .ok (_, p2) =>
        match expression fuel toks p2 with
        | .error e => .error e
        | .ok (value, p3) => .ok (.Assignment nameTok.value.getStr value, p3)

/-- `Parser.expression` (src lines 320-327): delegates to `addition`. -/
def expression : Nat → List Token → Nat → Except PError (ASTNode × Nat)
  | 0, _, _ => .error .outOfFuel
  | fuel+1, toks, pos => addition fuel toks pos

/-- `Parser.addition` (src lines 329-342): a `multiplication` followed by
the `(+|-) multiplication` loop. -/
def addition : Nat → List Token → Nat → Except PError (ASTNode × Nat)
  | 0, _, _ => .error .outOfFuel
  | fuel+1, toks, pos =>
    match multiplication fuel toks pos with
    | .error e => .error e
    | .ok (node, p1) => additionLoop fuel toks node p1

/-- The `while` loop of `Parser.addition` (src lines 337-341), with the
accumulated left node made explicit. -/
def additionLoop : Nat → List Token → ASTNode → Nat → Except PError (ASTNode × Nat)
  | 0, _, _, _ => .error .outOfFuel
  | fuel+1, toks, node, pos =>
    if isAddSubOp toks pos then
      match consume toks pos .OPERATOR none with
      | .error e => .error e
      | .ok (opTok, p1) =>
        match multiplication fuel toks p1 with
        | .error e => .error e
        | .ok (right, p2) =>
          additionLoop fuel toks (.BinaryOp node opTok.value.getStr right) p2
    else .ok (node, pos)

/-- `Parser.multiplication` (src lines 344-357): a `primary` followed by the
`(*|/) primary` loop. -/
def multiplication : Nat → List Token → Nat → Except PError (ASTNode × Nat)
  | 0, _, _ => .error .outOfFuel
  | fuel+1, toks, pos =>
    match primary fuel toks pos with
    | .error e => .error e
    | .ok (node, p1) => multiplicationLoop fuel toks node p1

/-- The `while` loop of `Parser.multiplication` (src lines 352-356). -/
def multiplicationLoop : Nat → List Token → ASTNode → Nat → Except PError (ASTNode × Nat)
  | 0, _, _, _ => .error .outOfFuel
  | fuel+1, toks, node, pos =>
    if isMulDivOp toks pos then
      match consume toks pos .OPERATOR none with
      | .error e => .error e
      | .ok (opTok, p1) =>
        match primary fuel toks p1 with
        | .error e => .error e
        | .ok (right, p2) =>
          multiplicationLoop fuel toks (.BinaryOp node opTok.value.getStr right) p2
    else .ok (node, pos)

/-- `Parser.primary` (src lines 359-371).  The source immediately reads
`self.current_token().type`; with exhausted tokens `current_token()` is
`None` and the attribute access raises `AttributeError`
(`attrErrorNoneType`), not the `unexpectedEnd` of `consume`. -/
def primary : Nat → List Token → Nat → Except PError (ASTNode × Nat)
  | 0, _, _ => .error .outOfFuel
  | _+1, toks, pos =>
    match currentToken toks pos with
    | none => .error .attrErrorNoneType
    | some t =>
      if t.type = .NUMBER then
        match consume toks pos .NUMBER none with
        | .error e => .error e
        | .ok (tok, p1) => .ok (.Number tok.value.getInt, p1)
      else if t.type = .IDENTIFIER then
        match consume toks pos .IDENTIFIER none with
        | .error e => .error e
        | .ok (tok, p1) => .ok (.Variable tok.value.getStr, p1)
      else .error .invalidPrimary

end

/-- `Parser.parse` (src lines 250-257): parse one statement starting at
position 0.  The returned position is the value of `self.pos` afterwards. -/
def parse (fuel : Nat) (toks : List Token) : Except PError (Option ASTNode × Nat) :=
  statement fuel toks 0

/-! ## Evaluator (`Interpreter` class, src lines 420-474) -/

/-- Evaluator failures: `Division by zero` (src line 457), `Unknown node
type` (src line 474), and `typeError` for the Python `TypeError` when
arithmetic is applied to the `None` result of a value-less statement.
`outOfFuel` is an embedding artifact. -/
inductive EvalError
  | divisionByZero
  | unknownNode
  | typeError
  | outOfFuel
deriving DecidableEq

/-- The variable environment `Interpreter.variables`: an association list
from names to stored values.  A stored value is `Option Rat` because Python
stores whatever `interpret` returned, which may be `None`. -/
abbrev Env := List (String × Option Rat)

/-- `self.variables.get(name, 0)` (src line 445): the stored value if the
name is bound (possibly `None`), else `0`. -/
def envGet (env : Env) (name : String) : Option Rat :=
  match env.find? (fun p => p.1 == name) with
  | some p => p.2
  | none => some 0

/-- `self.variables[name] = value` (src line 461): overwrite the binding in
place if present, else append a new one (Python dict insertion order). -/
def envSet (env : Env) (name : String) (v : Option Rat) : Env :=
  if env.any (fun p => p.1 == name) then
    env.map (fun p => if p.1 == name then (p.1, v) else p)
  else env ++ [(name, v)]

/-- Python truthiness of an `interpret` result: `None` and `0` are falsy,
every other number is truthy. -/
def truthy : Option Rat → Bool
  | none => false
  | some q => if q = 0 then false else true

/-- The operator dispatch of the `BinaryOpNode` arm (src lines 449-458),
applied after both operands are evaluated: `+`, `-`, `*` are arithmetic,
`/` first checks the right operand against `0` (raising `Division by zero`)
and otherwise divides; any other operator falls through the `if`/`elif`
chain and the method returns `None`.  Arithmetic on a `None` operand is
the Python `TypeError`. -/
def applyBinOp (op : String) (lv rv : Option Rat) : Except EvalError (Option Rat) :=
  if op = "+" then
    match lv, rv with
    | some a, some b => .ok (some (a + b))
    | _, _ => .error .typeError
  else if op = "-" then
    match lv, rv with
    | some a, some b => .ok (some (a - b))
    | _, _ => .error .typeError
  else if op = "*" then
    match lv, rv with
    | some a, some b => .ok (some (a * b))
    | _, _ => .error .typeError
  else if op = "/" then
    match rv with
    | some b =>
      if b = 0 then .error .divisionByZero
      else
        match lv with
        | some a => .ok (some (a / b))
        | none => .error .typeError
    | none => .error .typeError
  else .ok none

mutual

/-- `Interpreter.interpret` (src lines 434-474), with the environment passed
explicitly.  The environment is returned in the error case as well, because
in the source the mutated `self.variables` survives a raised exception.
The argument is an `Option ASTNode` because the source feeds `interpret`
results of `Parser.statement`, which may be `None`; `interpret(None)` hits
the defensive `else` and raises `Unknown node type`. -/
def interpret : Nat → Env → Option ASTNode → Env × Except EvalError (Option Rat)
  | 0, env, _ => (env, .error .outOfFuel)
  | fuel+1, env, node =>
    match node with
    | none => (env, .error .unknownNode)
    | some (.Number v) => (env, .ok (some (v : Rat)))
    | some (.Variable name) => (env, .ok (envGet env name))
    | some (.BinaryOp l op r) =>
      match interpret fuel env (some l) with
      | (env1, .error e) => (env1, .error e)
      | (env1, .ok lv) =>
        match interpret fuel env1 (some r) with
        | (env2, .error e) => (env2, .error e)
        | (env2, .ok rv) => (env2, applyBinOp op lv rv)
    | some (.Assignment name v) =>
      match interpret fuel env (some v) with
      | (env1, .error e) => (env1, .error e)
      | (env1, .ok value) => (envSet env1 name value, .ok value)
    | some (.If c tb eb) =>
      match interpret fuel env (some c) with
      | (env1, .error e) => (env1, .error e)
      | (env1, .ok cv) =>
        if truthy cv then interpret fuel env1 tb
        else
          match eb with
          | some e => interpret fuel env1 (some e)
          | none => (env1, .ok none)
    | some (.While c b) => whileLoop fuel env c b none

/-- The `while` loop of the `WhileNode` arm (src lines 468-472): `last` is
the running `result` variable, initially `None` and overwritten with each
body result (which may itself be `None`). -/
def whileLoop : Nat → Env → ASTNode → Option ASTNode → Option Rat →
    Env × Except EvalError (Option Rat)
  | 0, env, _, _, _ => (env, .error .outOfFuel)
  | fuel+1, env, c, b, last =>
    match interpret fuel env (some c) with
    | (env1, .error e) => (env1, .error e)
    | (env1, .ok cv) =>
      if truthy cv then
        match interpret fuel env1 b with
        | (env2, .error e) => (env2, .error e)
        | (env2, .ok bv) => whileLoop fuel env2 c b bv
      else (env1, .ok last)

end

/-! ## Syntactic helpers used by the frame claims -/

mutual

/-- The assignment target names occurring anywhere in a tree: exactly the
names the evaluator can create or overwrite while interpreting it. -/
def assignTargets : ASTNode → List String
  | .Number _ => []
  | .Variable _ => []
  | .BinaryOp l _ r => assignTargets l ++ assignTargets r
  | .Assignment n v => n :: assignTargets v
  | .If c tb eb => assignTargets c ++ assignTargetsO tb ++ assignTargetsO eb
  | .While c b => assignTargets c ++ assignTargetsO b

/-- Assignment targets of an optional node. -/
def assignTargetsO : Option ASTNode → List String
  | none => []
  | some n => assignTargets n

end

/-! ## Concrete token sequences used by the claims -/

/-- The tokens of `"x = 5\ny = 3\nx + y"`. -/
def toksMulti : List Token :=
  [⟨.IDENTIFIER, .str "x"⟩, ⟨.OPERATOR, .str "="⟩, ⟨.NUMBER, .num 5⟩,
   ⟨.IDENTIFIER, .str "y"⟩, ⟨.OPERATOR, .str "="⟩, ⟨.NUMBER, .num 3⟩,
   ⟨.IDENTIFIER, .str "x"⟩, ⟨.OPERATOR, .str "+"⟩, ⟨.IDENTIFIER, .str "y"⟩]

/-- The tokens of `"2 + 3 * 4"`. -/
def toks234 : List Token :=
  [⟨.NUMBER, .num 2⟩, ⟨.OPERATOR, .str "+"⟩, ⟨.NUMBER, .num 3⟩,
   ⟨.OPERATOR, .str "*"⟩, ⟨.NUMBER, .num 4⟩]

/-- The tree `BinaryOp(+, Number(2), BinaryOp(*, Number(3), Number(4)))`. -/
def tree234 : ASTNode :=
  .BinaryOp (.Number 2) "+" (.BinaryOp (.Number 3) "*" (.Number 4))

/-! ## Claims C1-C4: the parser -/

/-- C1, counterexample: the token sequence `[KEYWORD "def"]` is non-empty,
yet `parse` yields the no-statement result (`Parser.statement` falls through
its keyword `if`/`elif` with no `else` and implicitly returns `None`),
contradicting the claim that only the empty sequence does. -/
theorem c1_counterexample :
    parse 50 [Token.mk .KEYWORD (.str "def")] = .ok (none, 0) ∧
    [Token.mk .KEYWORD (.str "def")] ≠ ([] : List Token) :=
  ⟨rfl, by decide⟩

/-- C1, amended: for every fuel and token sequence, `parse` returns the
no-statement result exactly when the sequence is empty or its first token is
a `KEYWORD` whose value is neither `"if"` nor `"while"` (such as `def` or
`else`); in every other case it returns an AST node or fails. -/
theorem c1_amended (fuel : Nat) (toks : List Token) :
    parse (fuel + 1) toks = .ok (none, 0) ↔
      toks = [] ∨ ∃ t ts, toks = t :: ts ∧ t.type = .KEYWORD ∧
        t.value ≠ .str "if" ∧ t.value ≠ .str "while" := by
  cases toks with
  | nil => simp [parse, statement]
  | cons t ts =>
    simp only [parse, statement, List.length_cons, currentToken, List.get?]
    by_cases hK : t.type = TokenType.KEYWORD
    · by_cases hIf : t.value = TokenValue.str "if"
      · simp only [hK, hIf, if_true, if_pos, Nat.le_zero]
        constructor
        · intro h
          cases hr : ifStatement fuel (t :: ts) 0 with
          | error e => rw [hr] at h; simp at h
          | ok v => rw [hr] at h; cases v with | mk n p => simp at h
        · rintro (h | ⟨t', ts', heq, hK', hIf', _⟩)
          · simp at h
          · cases heq; exact absurd hIf hIf'
      · by_cases hW : t.value = TokenValue.str "while"
        · simp only [hK, hIf, hW, if_true, if_false, if_pos, Nat.le_zero]
          constructor
          · intro h
            cases hr : whileStatement fuel (t :: ts) 0 with
            | error e => rw [hr] at h; simp at h
            | ok v => rw [hr] at h; cases v with | mk n p => simp at h
          · rintro (h | ⟨t', ts', heq, hK', _, hW'⟩)
            · simp at h
            · cases heq; exact absurd hW hW'
        · simp only [hK, hIf, hW, if_true, if_false, Nat.le_zero]
          simp only [Nat.succ_ne_zero, if_false]
          constructor
          · intro _; exact Or.inr ⟨t, ts, rfl, hK, hIf, hW⟩
          · intro _; trivial
    · simp only [hK, if_false, Nat.le_zero, Nat.succ_ne_zero]
      constructor
      · intro h
        by_cases hA : (t.type == TokenType.IDENTIFIER && assignLookahead (t :: ts) 0) = true
        · rw [if_pos hA] at h
          cases hr : assignment fuel (t :: ts) 0 with
          | error e => rw [hr] at h; simp at h
          | ok v => rw [hr] at h; cases v with | mk n p => simp at h
        · rw [if_neg hA] at h
          cases hr : expression fuel (t :: ts) 0 with
          | error e => rw [hr] at h; simp at h
          | ok v => rw [hr] at h; cases v with | mk n p => simp at h
      · rintro (h | ⟨t', ts', heq, hK', _, _⟩)
        · simp at h
        · cases heq; exact absurd hK' hK

/-- C2: for the token sequence of `"x = 5\ny = 3\nx + y"` (9 tokens),
`parse` returns only the first complete statement, `Assignment(x, 5)`, does
not fail, and leaves the position at 3, strictly less than the token count;
parsing just the consumed prefix yields the same node, so the trailing
tokens had no effect on the result. -/
theorem c2_first_statement_only :
    tokenize 20 "x = 5\ny = 3\nx + y".toList = .ok toksMulti ∧
    toksMulti.length = 9 ∧
    parse 50 toksMulti = .ok (some (.Assignment "x" (.Number 5)), 3) ∧
    3 < toksMulti.length ∧
    parse 50 (toksMulti.take 3) = .ok (some (.Assignment "x" (.Number 5)), 3) :=
  ⟨rfl, rfl, rfl, by decide, rfl⟩

/-- C3 (code bug): on the tokens of `"1 +"` the parser requires a token
after the trailing operator, the tokens are exhausted, and the code fails
with the modelled `AttributeError` (`current_token()` is `None` and
`Parser.primary` reads `.type` from it) — not with the intended
`unexpectedEnd` parse error, which `Parser.consume` implements but which is
unreachable through `parse`. -/
theorem c3_exhaustion_attr_error :
    tokenize 20 "1 +".toList = .ok [⟨.NUMBER, .num 1⟩, ⟨.OPERATOR, .str "+"⟩] ∧
    parse 50 [⟨.NUMBER, .num 1⟩, ⟨.OPERATOR, .str "+"⟩] = .error .attrErrorNoneType ∧
    PError.attrErrorNoneType ≠ PError.unexpectedEnd :=
  ⟨rfl, rfl, by decide⟩

/-- C4: multiplication binds tighter than addition — the tokens of
`"2 + 3 * 4"` parse to `BinaryOp(+, Number(2), BinaryOp(*, Number(3),
Number(4)))`, and interpreting that tree returns 14. -/
theorem c4_precedence :
    tokenize 20 "2 + 3 * 4".toList = .ok toks234 ∧
    parse 50 toks234 = .ok (some tree234, 5) ∧
    interpret 50 [] (some tree234) = ([], .ok (some 14)) :=
  ⟨rfl, rfl, by simp [tree234, interpret, applyBinOp]; norm_num⟩

/-! ## Claims C5, C6, C8, C9, C10: the evaluator -/

/-- Unfolding of the `BinaryOpNode` arm: once both operands evaluate
successfully, the result is `applyBinOp` on their values, in the final
environment of the right operand. -/
lemma interpret_binop (fuel : Nat) (env env1 env2 : Env) (l r : ASTNode) (op : String)
    (lv rv : Option Rat)
    (hl : interpret fuel env (some l) = (env1, .ok lv))
    (hr : interpret fuel env1 (some r) = (env2, .ok rv)) :
    interpret (fuel + 1) env (some (.BinaryOp l op r)) = (env2, applyBinOp op lv rv) := by
  simp [interpret, hl, hr]

/-- C5: for a `BinaryOp` with operator `/` whose operands evaluate to values
`lv` and `rv`, `interpret` fails with `DivisionByZeroError` iff `rv` is
exactly zero, and otherwise returns the true (non-truncating) quotient
`lv / rv`; in particular the parse of `"5 / 0"` fails with
`DivisionByZeroError` at evaluation time. -/
theorem c5_division (fuel : Nat) (env env1 env2 : Env) (l r : ASTNode) (lv rv : Rat)
    (hl : interpret fuel env (some l) = (env1, .ok (some lv)))
    (hr : interpret fuel env1 (some r) = (env2, .ok (some rv))) :
    ((interpret (fuel + 1) env (some (.BinaryOp l "/" r)) =
        (env2, .error .divisionByZero)) ↔ rv = 0) ∧
    (rv ≠ 0 → interpret (fuel + 1) env (some (.BinaryOp l "/" r)) =
        (env2, .ok (some (lv / rv)))) ∧
    tokenize 20 "5 / 0".toList =
      .ok [⟨.NUMBER, .num 5⟩, ⟨.OPERATOR, .str "/"⟩, ⟨.NUMBER, .num 0⟩] ∧
    parse 50 [⟨.NUMBER, .num 5⟩, ⟨.OPERATOR, .str "/"⟩, ⟨.NUMBER, .num 0⟩] =
      .ok (some (.BinaryOp (.Number 5) "/" (.Number 0)), 3) ∧
    interpret 50 [] (some (.BinaryOp (.Number 5) "/" (.Number 0))) =
      ([], .error .divisionByZero) := by
  have hb := interpret_binop fuel env env1 env2 l r "/" (some lv) (some rv) hl hr
  refine ⟨?_, ?_, rfl, rfl, ?_⟩
  · rw [hb]
    by_cases h0 : rv = 0
    · simp [applyBinOp, h0]
    · simp [applyBinOp, h0]
  · intro hne
    rw [hb]
    simp [applyBinOp, hne]
  · simp [interpret, applyBinOp]

/-- C5 witness at `l = Number 5`, `r = Number 0`. -/
theorem c5_division_witness :
    ((interpret 2 [] (some (.BinaryOp (.Number 5) "/" (.Number 0))) =
        ([], .error .divisionByZero)) ↔ (0 : Rat) = 0) ∧
    ((0 : Rat) ≠ 0 → interpret 2 [] (some (.BinaryOp (.Number 5) "/" (.Number 0))) =
        ([], .ok (some ((5 : Rat) / 0)))) ∧
    tokenize 20 "5 / 0".toList =
      .ok [⟨.NUMBER, .num 5⟩, ⟨.OPERATOR, .str "/"⟩, ⟨.NUMBER, .num 0⟩] ∧
    parse 50 [⟨.NUMBER, .num 5⟩, ⟨.OPERATOR, .str "/"⟩, ⟨.NUMBER, .num 0⟩] =
      .ok (some (.BinaryOp (.Number 5) "/" (.Number 0)), 3) ∧
    interpret 50 [] (some (.BinaryOp (.Number 5) "/" (.Number 0))) =
      ([], .error .divisionByZero) :=
  c5_division 1 [] [] [] (.Number 5) (.Number 0) 5 0 rfl rfl

/-- C6: evaluating `Assignment(name, v)` stores the result of `v` into the
environment under `name` (overwriting via `envSet`) and returns that value;
evaluating a `Variable` absent from the environment returns 0.  Concretely,
`"x = 5"` evaluates to 5 leaving `x -> 5`, and `Variable("y")` afterwards
returns 0. -/
theorem c6_assignment_env :
    (∀ fuel env env1 name v val, interpret fuel env (some v) = (env1, .ok val) →
      interpret (fuel + 1) env (some (.Assignment name v)) =
        (envSet env1 name val, .ok val)) ∧
    (∀ fuel (env : Env) name, env.find? (fun p => p.1 == name) = none →
      interpret (fuel + 1) env (some (.Variable name)) = (env, .ok (some 0))) ∧
    tokenize 20 "x = 5".toList =
      .ok [⟨.IDENTIFIER, .str "x"⟩, ⟨.OPERATOR, .str "="⟩, ⟨.NUMBER, .num 5⟩] ∧
    parse 50 [⟨.IDENTIFIER, .str "x"⟩, ⟨.OPERATOR, .str "="⟩, ⟨.NUMBER, .num 5⟩] =
      .ok (some (.Assignment "x" (.Number 5)), 3) ∧
    interpret 50 [] (some (.Assignment "x" (.Number 5))) =
      ([("x", some 5)], .ok (some 5)) ∧
    interpret 50 [("x", some 5)] (some (.Variable "y")) =
      ([("x", some 5)], .ok (some 0)) := by
  refine ⟨?_, ?_, rfl, rfl, rfl, rfl⟩
  · intro fuel env env1 name v val h
    simp [interpret, h]
  · intro fuel env name h
    simp [interpret, envGet, h]

/-- C6 witness: assignment at `z = 3` from the empty environment, variable
lookup of the unbound `w`. -/
theorem c6_assignment_env_witness :
    interpret 2 [] (some (.Assignment "z" (.Number 3))) =
      (envSet [] "z" (some 3), .ok (some 3)) ∧
    interpret 1 [] (some (.Variable "w")) = ([], .ok (some 0)) :=
  ⟨c6_assignment_env.1 1 [] [] "z" (.Number 3) (some 3) rfl,
   c6_assignment_env.2.1 0 [] "w" rfl⟩

/-- C8: evaluating `If(c, tb, eb)` first evaluates the condition; a non-zero
numeric result selects the then-branch, a zero result selects the
else-branch when present, and with no else-branch the result is the
no-value result with neither branch evaluated (the environment is exactly
the one left by the condition). -/
theorem c8_if_semantics (fuel : Nat) (env env1 : Env) (c : ASTNode)
    (tb eb : Option ASTNode) (cv : Rat)
    (hc : interpret fuel env (some c) = (env1, .ok (some cv))) :
    (cv ≠ 0 → interpret (fuel + 1) env (some (.If c tb eb)) = interpret fuel env1 tb) ∧
    (cv = 0 → ∀ e, eb = some e →
      interpret (fuel + 1) env (some (.If c tb eb)) = interpret fuel env1 (some e)) ∧
    (cv = 0 → eb = none →
      interpret (fuel + 1) env (some (.If c tb eb)) = (env1, .ok none)) := by
  refine ⟨?_, ?_, ?_⟩
  · intro hne
    simp [interpret, hc, truthy, hne]
  · intro h0 e he
    subst he
    simp [interpret, hc, truthy, h0]
  · intro h0 he
    subst he
    simp [interpret, hc, truthy, h0]

/-- C8 witness: a true condition selects the then-branch. -/
theorem c8_if_semantics_witness :
    interpret 2 [] (some (.If (.Number 1) (some (.Number 7)) none)) =
      interpret 1 [] (some (.Number 7)) :=
  (c8_if_semantics 1 [] [] (.Number 1) (some (.Number 7)) none 1 rfl).1 (by norm_num)

/-- C9: evaluating `While(c, b)` enters `whileLoop` with no last result; a
first condition check of zero returns the no-value result without touching
the body; each non-zero condition check evaluates the body exactly once and
continues with the body result as the remembered last value; a falsy
check returns the remembered last value. -/
theorem c9_while_semantics :
    (∀ fuel env c b, interpret (fuel + 1) env (some (.While c b)) =
      whileLoop fuel env c b none) ∧
    (∀ fuel env env1 (c : ASTNode) (b : Option ASTNode),
      interpret fuel env (some c) = (env1, .ok (some 0)) →
      interpret (fuel + 2) env (some (.While c b)) = (env1, .ok none)) ∧
    (∀ fuel env env1 (c : ASTNode) (b : Option ASTNode) last (cv : Rat),
      interpret fuel env (some c) = (env1, .ok (some cv)) → cv ≠ 0 →
      ∀ env2 bv, interpret fuel env1 b = (env2, .ok bv) →
      whileLoop (fuel + 1) env c b last = whileLoop fuel env2 c b bv) ∧
    (∀ fuel env env1 (c : ASTNode) (b : Option ASTNode) last,
      interpret fuel env (some c) = (env1, .ok (some 0)) →
      whileLoop (fuel + 1) env c b last = (env1, .ok last)) := by
  refine ⟨?_, ?_, ?_, ?_⟩
  · intro fuel env c b
    simp [interpret]
  · intro fuel env env1 c b hc
    have h1 : interpret (fuel + 1 + 1) env (some (.While c b)) =
        whileLoop (fuel + 1) env c b none := by simp [interpret]
    rw [h1]
    simp [whileLoop, hc, truthy]
  · intro fuel env env1 c b last cv hc hne env2 bv hb
    simp [whileLoop, hc, truthy, hne, hb]
  · intro fuel env env1 c b last hc
    simp [whileLoop, hc, truthy]

/-- C9 witness: an initially-false condition returns no-value without
evaluating the body. -/
theorem c9_while_semantics_witness :
    interpret 3 [] (some (.While (.Number 0) (some (.Number 7)))) = ([], .ok none) :=
  c9_while_semantics.2.1 1 [] [] (.Number 0) (some (.Number 7)) rfl

/-- C10: a `BinaryOp` whose operator is none of `+`, `-`, `*`, `/` (such as
`<`) evaluates both operands and then returns the no-value result — no
`UnknownNodeError` or other failure is raised. -/
theorem c10_unknown_op_no_value (fuel : Nat) (env env1 env2 : Env) (l r : ASTNode)
    (op : String) (lv rv : Option Rat)
    (hop : op ∉ ["+", "-", "*", "/"])
    (hl : interpret fuel env (some l) = (env1, .ok lv))
    (hr : interpret fuel env1 (some r) = (env2, .ok rv)) :
    interpret (fuel + 1) env (some (.BinaryOp l op r)) = (env2, .ok none) := by
  rw [interpret_binop fuel env env1 env2 l r op lv rv hl hr]
  simp only [List.mem_cons, List.not_mem_nil, not_or, or_false] at hop
  obtain ⟨h1, h2, h3, h4⟩ := hop
  simp [applyBinOp, h1, h2, h3, h4]

/-- C10 witness at the operator `<`. -/
theorem c10_unknown_op_no_value_witness :
    interpret 2 [] (some (.BinaryOp (.Number 1) "<" (.Number 2))) = ([], .ok none) :=
  c10_unknown_op_no_value 1 [] [] [] (.Number 1) (.Number 2) "<" (some 1) (some 2)
    (by decide) rfl rfl

/-! ## Claim C7: the frame property of the environment -/

/-- Overwriting the binding of `n` in place leaves the lookup of any other
name unchanged. -/
lemma find?_update_ne (env : Env) (n name : String) (v : Option Rat) (hne : n ≠ name) :
    (env.map fun p => if p.1 == n then (p.1, v) else p).find? (fun p => p.1 == name) =
      env.find? (fun p => p.1 == name) := by
  induction env with
  | nil => rfl
  | cons p ps ih =>
    simp only [List.map_cons]
    by_cases hpn : (p.1 == n) = true
    · have hp1 : p.1 = n := by simpa using hpn
      have hpname : (p.1 == name) = false := by
        simp only [hp1, beq_eq_false_iff_ne, ne_eq]
        exact hne
      simp only [hpn, if_true, List.find?, hpname]
      exact ih
    · simp only [hpn, Bool.false_eq_true, if_false, List.find?]
      by_cases hp : (p.1 == name) = true
      · simp only [hp]
      · simp only [Bool.not_eq_true] at hp
        simp only [hp]
        exact ih

/-- Appending a binding for `n` leaves the lookup of any other name
unchanged. -/
lemma find?_append_ne (env : Env) (n name : String) (v : Option Rat) (hne : n ≠ name) :
    (env ++ [(n, v)]).find? (fun p => p.1 == name) = env.find? (fun p => p.1 == name) := by
  induction env with
  | nil =>
    have hnn : (n == name) = false := by
      simp only [beq_eq_false_iff_ne, ne_eq]
      exact hne
    simp [List.find?, hnn]
  | cons p ps ih =>
    simp only [List.cons_append, List.find?]
    by_cases hp : (p.1 == name) = true
    · simp only [hp]
    · simp only [Bool.not_eq_true] at hp
      simp only [hp]
      exact ih

/-! Step-unfolding lemmas for `interpret`/`whileLoop`, one per evaluation
path of the compound node kinds; each follows directly from one unfolding
of the definition. -/

lemma istep_binop_errl (fuel : Nat) (env env1 : Env) (l r : ASTNode) (op : String)
    (e : EvalError) (hl : interpret fuel env (some l) = (env1, .error e)) :
    interpret (fuel + 1) env (some (.BinaryOp l op r)) = (env1, .error e) := by
  simp [interpret, hl]

lemma istep_binop_errr (fuel : Nat) (env env1 env2 : Env) (l r : ASTNode) (op : String)
    (lv : Option Rat) (e : EvalError)
    (hl : interpret fuel env (some l) = (env1, .ok lv))
    (hr : interpret fuel env1 (some r) = (env2, .error e)) :
    interpret (fuel + 1) env (some (.BinaryOp l op r)) = (env2, .error e) := by
  simp [interpret, hl, hr]

lemma istep_assign_err (fuel : Nat) (env env1 : Env) (n : String) (v : ASTNode)
    (e : EvalError) (h : interpret fuel env (some v) = (env1, .error e)) :
    interpret (fuel + 1) env (some (.Assignment n v)) = (env1, .error e) := by
  simp [interpret, h]

lemma istep_assign_ok (fuel : Nat) (env env1 : Env) (n : String) (v : ASTNode)
    (val : Option Rat) (h : interpret fuel env (some v) = (env1, .ok val)) :
    interpret (fuel + 1) env (some (.Assignment n v)) = (envSet env1 n val, .ok val) := by
  simp [interpret, h]

lemma istep_if_err (fuel : Nat) (env env1 : Env) (c : ASTNode) (tb eb : Option ASTNode)
    (e : EvalError) (h : interpret fuel env (some c) = (env1, .error e)) :
    interpret (fuel + 1) env (some (.If c tb eb)) = (env1, .error e) := by
  simp [interpret, h]

lemma istep_if_true (fuel : Nat) (env env1 : Env) (c : ASTNode) (tb eb : Option ASTNode)
    (cv : Option Rat) (h : interpret fuel env (some c) = (env1, .ok cv))
    (ht : truthy cv = true) :
    interpret (fuel + 1) env (some (.If c tb eb)) = interpret fuel env1 tb := by
  simp [interpret, h, ht]

lemma istep_if_false_some (fuel : Nat) (env env1 : Env) (c e : ASTNode)
    (tb : Option ASTNode) (cv : Option Rat)
    (h : interpret fuel env (some c) = (env1, .ok cv)) (ht : truthy cv = false) :
    interpret (fuel + 1) env (some (.If c tb (some e))) = interpret fuel env1 (some e) := by
  simp [interpret, h, ht]

lemma istep_if_false_none (fuel : Nat) (env env1 : Env) (c : ASTNode)
    (tb : Option ASTNode) (cv : Option Rat)
    (h : interpret fuel env (some c) = (env1, .ok cv)) (ht : truthy cv = false) :
    interpret (fuel + 1) env (some (.If c tb none)) = (env1, .ok none) := by
  simp [interpret, h, ht]

lemma istep_while (fuel : Nat) (env : Env) (c : ASTNode) (b : Option ASTNode) :
    interpret (fuel + 1) env (some (.While c b)) = whileLoop fuel env c b none := by
  simp [interpret]

lemma wstep_err (fuel : Nat) (env env1 : Env) (c : ASTNode) (b : Option ASTNode)
    (last : Option Rat) (e : EvalError)
    (h : interpret fuel env (some c) = (env1, .error e)) :
    whileLoop (fuel + 1) env c b last = (env1, .error e) := by
  simp [whileLoop, h]

lemma wstep_exit (fuel : Nat) (env env1 : Env) (c : ASTNode) (b : Option ASTNode)
    (last cv : Option Rat)
    (h : interpret fuel env (some c) = (env1, .ok cv)) (ht : truthy cv = false) :
    whileLoop (fuel + 1) env c b last = (env1, .ok last) := by
  simp [whileLoop, h, ht]

lemma wstep_berr (fuel : Nat) (env env1 env2 : Env) (c : ASTNode) (b : Option ASTNode)
    (last cv : Option Rat) (e : EvalError)
    (hc : interpret fuel env (some c) = (env1, .ok cv)) (ht : truthy cv = true)
    (hb : interpret fuel env1 b = (env2, .error e)) :
    whileLoop (fuel + 1) env c b last = (env2, .error e) := by
  simp [whileLoop, hc, ht, hb]

lemma wstep_bok (fuel : Nat) (env env1 env2 : Env) (c : ASTNode) (b : Option ASTNode)
    (last cv bv : Option Rat)
    (hc : interpret fuel env (some c) = (env1, .ok cv)) (ht : truthy cv = true)
    (hb : interpret fuel env1 b = (env2, .ok bv)) :
    whileLoop (fuel + 1) env c b last = whileLoop fuel env2 c b bv := by
  simp [whileLoop, hc, ht, hb]

/-- `envSet env n v` leaves the lookup of any name other than `n`
unchanged. -/
lemma envSet_find?_ne (env : Env) (n name : String) (v : Option Rat) (hne : n ≠ name) :
    (envSet env n v).find? (fun p => p.1 == name) = env.find? (fun p => p.1 == name) := by
  unfold envSet
  split
  · exact find?_update_ne env n name v hne
  · exact find?_append_ne env n name v hne

/-- Induction engine for C7: a name that is not an assignment target of the
tree keeps its binding (looked up with `find?`) across `interpret` and
across `whileLoop`, for every fuel — error outcomes included, since both
functions return the environment in the error case too. -/
lemma interpret_frame (fuel : Nat) :
    (∀ env node name, name ∉ assignTargetsO node →
      (interpret fuel env node).1.find? (fun p => p.1 == name) =
        env.find? (fun p => p.1 == name)) ∧
    (∀ env (c : ASTNode) (b : Option ASTNode) last name,
      name ∉ assignTargets c → name ∉ assignTargetsO b →
      (whileLoop fuel env c b last).1.find? (fun p => p.1 == name) =
        env.find? (fun p => p.1 == name)) := by
  induction fuel with
  | zero =>
    constructor
    · intro env node name _
      simp [interpret]
    · intro env c b last name _ _
      simp [whileLoop]
  | succ fuel ih =>
    obtain ⟨ihI, ihW⟩ := ih
    constructor
    · intro env node name hmem
      cases node with
      | none => simp [interpret]
      | some a =>
        cases a with
        | Number v => simp [interpret]
        | Variable nm => simp [interpret]
        | BinaryOp l op r =>
          simp only [assignTargetsO, assignTargets, List.mem_append, not_or] at hmem
          obtain ⟨hml, hmr⟩ := hmem
          have hL := ihI env (some l) name hml
          cases h1 : interpret fuel env (some l) with
          | mk env1 r1 =>
            rw [h1] at hL
            cases r1 with
            | error e =>
              rw [istep_binop_errl fuel env env1 l r op e h1]
              exact hL
            | ok lv =>
              have hR := ihI env1 (some r) name hmr
              cases h2 : interpret fuel env1 (some r) with
              | mk env2 r2 =>
                rw [h2] at hR
                cases r2 with
                | error e =>
                  rw [istep_binop_errr fuel env env1 env2 l r op lv e h1 h2]
                  exact hR.trans hL
                | ok rv =>
                  rw [interpret_binop fuel env env1 env2 l r op lv rv h1 h2]
                  exact hR.trans hL
        | Assignment n v =>
          simp only [assignTargetsO, assignTargets, List.mem_cons, not_or] at hmem
          obtain ⟨hnn, hmv⟩ := hmem
          have hV := ihI env (some v) name hmv
          cases h1 : interpret fuel env (some v) with
          | mk env1 r1 =>
            rw [h1] at hV
            cases r1 with
            | error e =>
              rw [istep_assign_err fuel env env1 n v e h1]
              exact hV
            | ok val =>
              rw [istep_assign_ok fuel env env1 n v val h1]
              exact (envSet_find?_ne env1 n name val (fun h => hnn h.symm)).trans hV
        | If c tb eb =>
          simp only [assignTargetsO, assignTargets, List.mem_append, not_or] at hmem
          obtain ⟨⟨hmc, hmt⟩, hme⟩ := hmem
          have hC := ihI env (some c) name hmc
          cases h1 : interpret fuel env (some c) with
          | mk env1 r1 =>
            rw [h1] at hC
            cases r1 with
            | error e =>
              rw [istep_if_err fuel env env1 c tb eb e h1]
              exact hC
            | ok cv =>
              by_cases ht : truthy cv = true
              · rw [istep_if_true fuel env env1 c tb eb cv h1 ht]
                exact (ihI env1 tb name hmt).trans hC
              · simp only [Bool.not_eq_true] at ht
                cases eb with
                | none =>
                  rw [istep_if_false_none fuel env env1 c tb cv h1 ht]
                  exact hC
                | some e =>
                  rw [istep_if_false_some fuel env env1 c e tb cv h1 ht]
                  exact (ihI env1 (some e) name hme).trans hC
        | While c b =>
          simp only [assignTargetsO, assignTargets, List.mem_append, not_or] at hmem
          obtain ⟨hmc, hmb⟩ := hmem
          rw [istep_while fuel env c b]
          exact ihW env c b none name hmc hmb
    · intro env c b last name hmc hmb
      have hC := ihI env (some c) name hmc
      cases h1 : interpret fuel env (some c) with
      | mk env1 r1 =>
        rw [h1] at hC
        cases r1 with
        | error e =>
          rw [wstep_err fuel env env1 c b last e h1]
          exact hC
        | ok cv =>
          by_cases ht : truthy cv = true
          · have hB := ihI env1 b name hmb
            cases h2 : interpret fuel env1 b with
            | mk env2 r2 =>
              rw [h2] at hB
              cases r2 with
              | error e =>
                rw [wstep_berr fuel env env1 env2 c b last cv e h1 ht h2]
                exact hB.trans hC
              | ok bv =>
                rw [wstep_bok fuel env env1 env2 c b last cv bv h1 ht h2]
                exact (ihW env2 c b bv name hmc hmb).trans (hB.trans hC)
          · simp only [Bool.not_eq_true] at ht
            rw [wstep_exit fuel env env1 c b last cv h1 ht]
            exact hC

/-- Induction engine for C7, second half: a tree with no `Assignment` node
anywhere leaves the environment exactly unchanged, across `interpret` and
`whileLoop`, even when the call ends in an error. -/
lemma interpret_no_assign (fuel : Nat) :
    (∀ env node, assignTargetsO node = [] → (interpret fuel env node).1 = env) ∧
    (∀ env (c : ASTNode) (b : Option ASTNode) last,
      assignTargets c = [] → assignTargetsO b = [] →
      (whileLoop fuel env c b last).1 = env) := by
  induction fuel with
  | zero =>
    constructor
    · intro env node _
      simp [interpret]
    · intro env c b last _ _
      simp [whileLoop]
  | succ fuel ih =>
    obtain ⟨ihI, ihW⟩ := ih
    constructor
    · intro env node hmem
      cases node with
      | none => simp [interpret]
      | some a =>
        cases a with
        | Number v => simp [interpret]
        | Variable nm => simp [interpret]
        | BinaryOp l op r =>
          simp only [assignTargetsO, assignTargets, List.append_eq_nil] at hmem
          obtain ⟨hml, hmr⟩ := hmem
          have hL := ihI env (some l) hml
          cases h1 : interpret fuel env (some l) with
          | mk env1 r1 =>
            rw [h1] at hL
            cases r1 with
            | error e =>
              rw [istep_binop_errl fuel env env1 l r op e h1]
              exact hL
            | ok lv =>
              have hR := ihI env1 (some r) hmr
              cases h2 : interpret fuel env1 (some r) with
              | mk env2 r2 =>
                rw [h2] at hR
                cases r2 with
                | error e =>
                  rw [istep_binop_errr fuel env env1 env2 l r op lv e h1 h2]
                  exact hR.trans hL
                | ok rv =>
                  rw [interpret_binop fuel env env1 env2 l r op lv rv h1 h2]
                  exact hR.trans hL
        | Assignment n v =>
          simp [assignTargetsO, assignTargets] at hmem
        | If c tb eb =>
          simp only [assignTargetsO, assignTargets, List.append_eq_nil] at hmem
          obtain ⟨⟨hmc, hmt⟩, hme⟩ := hmem
          have hC := ihI env (some c) hmc
          cases h1 : interpret fuel env (some c) with
          | mk env1 r1 =>
            rw [h1] at hC
            cases r1 with
            | error e =>
              rw [istep_if_err fuel env env1 c tb eb e h1]
              exact hC
            | ok cv =>
              by_cases ht : truthy cv = true
              · rw [istep_if_true fuel env env1 c tb eb cv h1 ht]
                exact (ihI env1 tb hmt).trans hC
              · simp only [Bool.not_eq_true] at ht
                cases eb with
                | none =>
                  rw [istep_if_false_none fuel env env1 c tb cv h1 ht]
                  exact hC
                | some e =>
                  rw [istep_if_false_some fuel env env1 c e tb cv h1 ht]
                  exact (ihI env1 (some e) hme).trans hC
        | While c b =>
          simp only [assignTargetsO, assignTargets, List.append_eq_nil] at hmem
          obtain ⟨hmc, hmb⟩ := hmem
          rw [istep_while fuel env c b]
          exact ihW env c b none hmc hmb
    · intro env c b last hmc hmb
      have hC := ihI env (some c) hmc
      cases h1 : interpret fuel env (some c) with
      | mk env1 r1 =>
        rw [h1] at hC
        cases r1 with
        | error e =>
          rw [wstep_err fuel env env1 c b last e h1]
          exact hC
        | ok cv =>
          by_cases ht : truthy cv = true
          · have hB := ihI env1 b hmb
            cases h2 : interpret fuel env1 b with
            | mk env2 r2 =>
              rw [h2] at hB
              cases r2 with
              | error e =>
                rw [wstep_berr fuel env env1 env2 c b last cv e h1 ht h2]
                exact hB.trans hC
              | ok bv =>
                rw [wstep_bok fuel env env1 env2 c b last cv bv h1 ht h2]
                exact (ihW env2 c b bv hmc hmb).trans (hB.trans hC)
          · simp only [Bool.not_eq_true] at ht
            rw [wstep_exit fuel env env1 c b last cv h1 ht]
            exact hC

/-- C7: a name that is not the target of any `Assignment` node inside the
tree keeps its binding across `interpret` (so every entry created or
overwritten results from evaluating some `Assignment` in the tree), and a
tree containing no `Assignment` node leaves the environment exactly
unchanged — error outcomes included, since the embedding returns the
environment alongside errors just as the Python object keeps its mutated
`variables` dictionary when an exception propagates. -/
theorem c7_frame :
    (∀ fuel env node name, name ∉ assignTargetsO node →
      (interpret fuel env node).1.find? (fun p => p.1 == name) =
        env.find? (fun p => p.1 == name)) ∧
    (∀ fuel env node, assignTargetsO node = [] → (interpret fuel env node).1 = env) :=
  ⟨fun fuel => (interpret_frame fuel).1, fun fuel => (interpret_no_assign fuel).1⟩

/-- C7 witness: a binary expression over a number and a variable touches
nothing in the environment. -/
theorem c7_frame_witness :
    (interpret 3 [("a", some 1)] (some (.BinaryOp (.Number 1) "+" (.Variable "a")))).1.find?
        (fun p => p.1 == "a") = [(("a" : String), some (1 : Rat))].find? (fun p => p.1 == "a") ∧
    (interpret 3 [("a", some 1)] (some (.BinaryOp (.Number 1) "+" (.Variable "a")))).1 =
      [(("a" : String), some (1 : Rat))] :=
  ⟨c7_frame.1 3 [("a", some 1)] (some (.BinaryOp (.Number 1) "+" (.Variable "a"))) "a"
      (by simp [assignTargetsO, assignTargets]),
   c7_frame.2 3 [("a", some 1)] (some (.BinaryOp (.Number 1) "+" (.Variable "a")))
      (by simp [assignTargetsO, assignTargets])⟩

end InterpSim
